import Mathlib

/-!
Shallow embedding of `src/event_reminder_bot.py` (a Telegram event-reminder
bot backed by MongoDB) together with proofs settling the frozen claims about
its specification.

Modelling conventions:
* MongoDB `ObjectId` values are modelled as `Nat`; `insert_one` draws fresh
  ids from a `nextId` counter threaded through the database state.
* Telegram user ids are modelled as `String` (the source always stores
  `str(user.id)`).
* A UTC instant used only for ordering comparisons (`date_time` fields,
  `datetime.now(pytz.UTC)` in the scanner and the upcoming-events query) is
  modelled as an `Int` (seconds); the 5-minute lookahead window is 300.
* Where the calendar structure of a datetime matters (the statistics
  handler calls `now.replace(day=1, hour=0, minute=0, second=0,
  microsecond=0)`), a datetime is modelled as an explicit `DateTuple` whose
  comparison is lexicographic, exactly the comparison semantics of equal-
  offset Python datetimes.
* Python exceptions raised by external calls (Mongo driver, Telegram
  transport, `dateutil`) are modelled with `Except` / explicit outcome
  environments; which exceptions a `try/except` catches is taken from the
  source.
-/

/-- Python exception classes relevant to the embedded handlers.
`valueError` covers `ValueError` and its subclass
`dateutil.parser.ParserError`; `typeError` is the `TypeError` raised by
comparing an offset-naive with an offset-aware datetime; `attributeError`
is raised by attribute access on a field a pydantic model does not have. -/
inductive PyExc
  | valueError
  | typeError
  | attributeError
deriving DecidableEq

/-- A Python `datetime` as produced by `dateutil.parser.parse`: an instant
plus the flag telling whether the object carries timezone info (aware) or
not (naive).  For a naive datetime the `instant` field is the nominal
clock reading; it is never compared against an aware instant without
raising (see `pyLtNow`). -/
structure PyDT where
  instant : Int
  aware : Bool
deriving DecidableEq

/-- The comparison `date_time < datetime.now(pytz.UTC)` from
`process_date_time`: `datetime.now(pytz.UTC)` is aware, so comparing it
with a naive left operand raises `TypeError`
("cannot compare offset-naive and offset-aware datetimes"). -/
def pyLtNow (d : PyDT) (now : Int) : Except PyExc Bool :=
  if d.aware then .ok (decide (d.instant < now)) else .error .typeError

/-- The components of a Python `datetime`, used where the source
manipulates calendar fields (`get_statistics`).  Comparison of two UTC
datetimes is lexicographic on these fields. -/
structure DateTuple where
  year : Nat
  month : Nat
  day : Nat
  hour : Nat
  minute : Nat
  second : Nat
  microsecond : Nat
deriving DecidableEq

/-- Lexicographic `≤` on datetimes, mirroring Python comparison of two
datetimes with the same (UTC) offset. -/
def DateTuple.leb (a b : DateTuple) : Bool :=
  if a.year ≠ b.year then decide (a.year < b.year)
  else if a.month ≠ b.month then decide (a.month < b.month)
  else if a.day ≠ b.day then decide (a.day < b.day)
  else if a.hour ≠ b.hour then decide (a.hour < b.hour)
  else if a.minute ≠ b.minute then decide (a.minute < b.minute)
  else if a.second ≠ b.second then decide (a.second < b.second)
  else decide (a.microsecond ≤ b.microsecond)

/-- A document of the `users` collection. -/
structure UserRec where
  user_id : String
  username : Option String
  first_name : String
  last_name : Option String
  created_at : DateTuple
deriving DecidableEq

/-- A document of the `categories` collection.  Categories seeded by
`register_user` are upserted with only `user_id` and `name` (plus the
generated `_id`), so `created_at` is optional. -/
structure Category where
  id : Nat
  user_id : String
  name : String
  created_at : Option DateTuple
deriving DecidableEq

/-- A document of the `events` collection. -/
structure Event where
  id : Nat
  user_id : String
  title : String
  description : String
  date_time : Int
  category_id : Nat
  created_at : DateTuple
  notified : Bool
deriving DecidableEq

/-- The three collections of the database plus the fresh-id counter. -/
structure DB where
  users : List UserRec
  categories : List Category
  events : List Event
  nextId : Nat
deriving DecidableEq

/-- `update_one` semantics on a list of documents: apply `f` to the first
document matching `p`, leave everything else unchanged (Mongo
`update_one` modifies at most one document). -/
def updateFirst (p : α → Bool) (f : α → α) : List α → List α
  | [] => []
  | x :: xs => if p x then f x :: xs else x :: updateFirst p f xs

/-- The incoming Telegram user object (`message.from_user`), whose id the
source always stringifies. -/
structure TgUser where
  id : String
  username : Option String
  first_name : String
  last_name : Option String
deriving DecidableEq

/-- `db.users.update_one({"user_id": uid}, {"$set": {...}}, upsert=True)`:
if a document with this `user_id` exists, overwrite its profile fields on
the first match; otherwise insert a new document carrying the filter
field plus the set fields. -/
def upsertUserDoc (db : DB) (u : TgUser) (now : DateTuple) : DB :=
  if db.users.any (fun x => x.user_id == u.id) then
    let setFields : UserRec → UserRec := fun x =>
      { x with username := u.username, first_name := u.first_name,
               last_name := u.last_name, created_at := now }
    { db with users := updateFirst (fun x => x.user_id == u.id) setFields db.users }
  else
    { db with users := db.users ++ [⟨u.id, u.username, u.first_name, u.last_name, now⟩] }

/-- One iteration of the default-category loop in `register_user`:
`db.categories.update_one({"user_id": uid, "name": cat}, {"$set": {"name":
cat}}, upsert=True)`.  On a match the update sets `name` to its current
value; on a miss it inserts a document with the two filter fields and a
fresh `_id`. -/
def seedCategory (db : DB) (uid name : String) : DB :=
  if db.categories.any (fun c => c.user_id == uid && c.name == name) then
    let setName : Category → Category := fun c => { c with name := name }
    { db with categories :=
        updateFirst (fun c => c.user_id == uid && c.name == name) setName db.categories }
  else
    { db with categories := db.categories ++ [⟨db.nextId, uid, name, none⟩],
              nextId := db.nextId + 1 }

/-- `register_user` from the source: upsert the user document, then ensure
the four default categories by upserting each in turn. -/
def register_user (db : DB) (u : TgUser) (now : DateTuple) : DB :=
  (["Work", "Personal", "Health", "Other"]).foldl
    (fun d name => seedCategory d u.id name) (upsertUserDoc db u now)

/-- `create_event` from the source: insert an event document with
`notified = False` and return the generated id together with the new
database state. -/
def create_event (db : DB) (uid title description : String) (dt : Int)
    (cid : Nat) (created : DateTuple) : Nat × DB :=
  (db.nextId,
   { db with
       events := db.events ++
         [⟨db.nextId, uid, title, description, dt, cid, created, false⟩],
       nextId := db.nextId + 1 })

/-- Ascending order on the `date_time` field, the sort key of
`get_upcoming_events` (`.sort("date_time", 1)`). -/
def byTimeAsc (a b : Event) : Prop := a.date_time ≤ b.date_time

instance : DecidableRel byTimeAsc := fun a b =>
  inferInstanceAs (Decidable (a.date_time ≤ b.date_time))

instance : IsTotal Event byTimeAsc := ⟨fun a b => Int.le_total a.date_time b.date_time⟩

instance : IsTrans Event byTimeAsc := ⟨fun _ _ _ hab hbc => le_trans hab hbc⟩

/-- `get_upcoming_events` from the source: the events of the user with
`date_time ≥ now` and `notified = False`, sorted ascending by
`date_time`, with no result limit (`to_list(None)`). -/
def get_upcoming_events (db : DB) (uid : String) (now : Int) : List Event :=
  List.insertionSort byTimeAsc
    (db.events.filter fun e =>
      e.user_id == uid && decide (now ≤ e.date_time) && !e.notified)

/-- `now.replace(day=1, hour=0, minute=0, second=0, microsecond=0)` from
`get_statistics`. -/
def start_of_month (now : DateTuple) : DateTuple :=
  { now with day := 1, hour := 0, minute := 0, second := 0, microsecond := 0 }

/-- The events of one user, in collection order (the `$match` stage of the
statistics aggregation and the base set of its `$group` stage). -/
def userEvents (db : DB) (uid : String) : List Event :=
  db.events.filter fun e => e.user_id == uid

/-- First-occurrence list of distinct values, used to model the output of
a Mongo `$group` stage (one output document per distinct key). -/
def distinctsAux (seen : List Nat) : List Nat → List Nat
  | [] => []
  | c :: rest =>
    if seen.contains c then distinctsAux seen rest
    else c :: distinctsAux (c :: seen) rest

/-- The `$group` stage of the statistics aggregation: one pair
`(category_id, count)` per distinct category id among the events of the
user. -/
def category_groups (db : DB) (uid : String) : List (Nat × Nat) :=
  (distinctsAux [] ((userEvents db uid).map (·.category_id))).map
    fun c => (c, ((userEvents db uid).filter fun e => e.category_id == c).length)

/-- Descending order on group counts, the `$sort: {count: -1}` stage. -/
def byCountDesc (a b : Nat × Nat) : Prop := b.2 ≤ a.2

instance : DecidableRel byCountDesc := fun a b =>
  inferInstanceAs (Decidable (b.2 ≤ a.2))

instance : IsTotal (Nat × Nat) byCountDesc := ⟨fun a b => Nat.le_total b.2 a.2⟩

instance : IsTrans (Nat × Nat) byCountDesc := ⟨fun _ _ _ hab hbc => le_trans hbc hab⟩

/-- The category groups sorted by descending count (`$sort` before
`$limit: 1`). -/
def sorted_groups (db : DB) (uid : String) : List (Nat × Nat) :=
  List.insertionSort byCountDesc (category_groups db uid)

/-- The dictionary returned by `get_statistics`. -/
structure Stats where
  events_this_month : Nat
  most_used_category : String
  most_used_count : Nat
deriving DecidableEq

/-- `get_statistics` from the source.  `events_this_month` counts the
documents with this `user_id` and `created_at ≥ start_of_month`.  The
most-used category comes from the aggregation `$match → $group → $sort →
$limit 1 → $lookup(categories) → $unwind`: taking the top group first and
only then joining means that a top group whose category id matches no
category document is dropped by `$unwind`, leaving an empty result, in
which case the source falls back to the sentinel `("None", 0)`. -/
def get_statistics (db : DB) (uid : String) (now : DateTuple) : Stats :=
  let monthCount :=
    (db.events.filter fun e =>
      e.user_id == uid && (start_of_month now).leb e.created_at).length
  match (sorted_groups db uid).head? with
  | none => ⟨monthCount, "None", 0⟩
  | some (c, n) =>
    match db.categories.find? (fun cat => cat.id == c) with
    | none => ⟨monthCount, "None", 0⟩
    | some cat => ⟨monthCount, cat.name, n⟩

/-- Outcomes of the external calls issued while `reminder_task` processes
one candidate event, keyed by the event id: whether
`db.categories.find_one` raises, whether `bot.send_message` raises, and
whether `db.events.update_one` raises.  These calls hit the Mongo driver
and the Telegram transport, so their failures are environmental. -/
structure Env where
  findCatRaises : Nat → Bool
  sendFails : Nat → Bool
  updateFails : Nat → Bool

/-- The candidate query of one scanner cycle:
`db.events.find({"date_time": {"$lte": now + timedelta(minutes=5)},
"notified": False }).to_list(None)` — all users, no limit. -/
def scanCandidates (db : DB) (now : Int) : List Event :=
  db.events.filter fun e => decide (e.date_time ≤ now + 300) && !e.notified

/-- The write `db.events.update_one({"_id": event["_id"]}, {"$set":
{"notified": True}})` from `reminder_task`: its filter matches on `_id`
alone, with no condition on the current `notified` value. -/
def notify_update_filter (eid : Nat) (e : Event) : Bool := e.id == eid

/-- Modelled from the spec: the write the spec requires for the
`notified` transition, an atomic conditional update whose filter demands
that `notified` is currently false in addition to matching the id.  This
definition follows the words of the spec and exists only to be compared
with `notify_update_filter`, the filter the source actually uses. -/
def notify_update_filter_spec (eid : Nat) (e : Event) : Bool :=
  e.id == eid && !e.notified

/-- Applying the notified write of the source to the database: set
`notified` on the first event matching the filter `{"_id": eid}`. -/
def mark_notified (db : DB) (eid : Nat) : DB :=
  { db with events :=
      updateFirst (notify_update_filter eid) (fun e => { e with notified := true }) db.events }

/-- The state visible after (a prefix of) one scanner cycle: the database,
the ids of the events for which `bot.send_message` returned successfully
(in delivery order), and whether an uncaught exception escaped the `for`
loop — which terminates the `while True:` coroutine, since nothing above
it catches. -/
structure CycleResult where
  db : DB
  sent : List Nat
  crashed : Bool
deriving DecidableEq

/-- The body of the `for event in events:` loop of `reminder_task`.  Per
candidate: `db.categories.find_one({"_id": event["category_id"]})` runs
OUTSIDE the `try`, so if it raises the loop (and the task) dies; a `None`
category silently skips the event; otherwise `bot.send_message` and then
the notified update run inside `try/except Exception`, so a failure of
either is caught and logged and the loop moves to the next candidate. -/
def runCycleAux (env : Env) : DB → List Nat → List Event → CycleResult
  | db, sent, [] => ⟨db, sent, false⟩
  | db, sent, e :: rest =>
    if env.findCatRaises e.id then ⟨db, sent, true⟩
    else
      match db.categories.find? (fun c => c.id == e.category_id) with
      | none => runCycleAux env db sent rest
      | some _ =>
        if env.sendFails e.id then runCycleAux env db sent rest
        else if env.updateFails e.id then runCycleAux env db (sent ++ [e.id]) rest
        else runCycleAux env (mark_notified db e.id) (sent ++ [e.id]) rest

/-- One full cycle of `reminder_task`: evaluate the candidate query once,
then iterate the loop body over the resulting list. -/
def reminder_cycle (db : DB) (env : Env) (now : Int) : CycleResult :=
  runCycleAux env db [] (scanCandidates db now)

/-- The failure-free environment: no external call raises. -/
def envOk : Env := ⟨fun _ => false, fun _ => false, fun _ => false⟩

/-- Two scanner cycles interleaved so that both evaluate the candidate
query against the same initial database before either performs its
updates — the schedule the spec worries about when it demands an atomic
conditional write for the `notified` transition. -/
def interleaved_two_scans (db : DB) (env : Env) (now : Int) : CycleResult :=
  let cands := scanCandidates db now
  let r1 := runCycleAux env db [] cands
  let r2 := runCycleAux env r1.db [] cands
  ⟨r2.db, r1.sent ++ r2.sent, r1.crashed || r2.crashed⟩

/-- Result of one `process_date_time` invocation, from the point of view
of the conversation: which reply was sent and which state the
conversation is in afterwards.  `stayEmpty`, `stayInvalid` and `stayPast`
re-prompt and keep the `date_time` state; `advance` moves to the category
state; `clearedNoUser` reports a generic error and clears the state;
`crash` is an exception escaping the handler (no reply, state
unchanged). -/
inductive DTOutcome
  | stayEmpty
  | stayInvalid
  | stayPast
  | clearedNoUser
  | advance (dt : PyDT)
  | crash (e : PyExc)
deriving DecidableEq

/-- `process_date_time` from the source, parameterised over the parse
function (`dateutil.parser.parse`) and the current aware UTC instant.
The source wraps the parse, the comparison with `datetime.now(pytz.UTC)`
and the rest of the branch in `try: ... except ValueError:`, so a
`ValueError` anywhere in it re-prompts with the invalid-format message
while any other exception escapes the handler. -/
def process_date_time (parse : String → Except PyExc PyDT) (now : Int)
    (text : Option String) (fromUser : Option String) : DTOutcome :=
  match text with
  | none => .stayEmpty
  | some t =>
    if t == "" then .stayEmpty
    else
      match parse t with
      | .error e => if e == .valueError then .stayInvalid else .crash e
      | .ok dt =>
        match pyLtNow dt now with
        | .error e => if e == .valueError then .stayInvalid else .crash e
        | .ok true => .stayPast
        | .ok false =>
          match fromUser with
          | none => .clearedNoUser
          | some _ => .advance dt

/-- Modelled behaviour of `dateutil.parser.parse` on the format the
handler itself suggests to the user ("e.g., 2025-06-15 14:30"): a string
carrying no explicit UTC offset parses to a NAIVE datetime
(`aware = false`); strings it cannot parse raise
`dateutil.parser.ParserError`, a subclass of `ValueError`. -/
def parse_dateutil_example : String → Except PyExc PyDT := fun s =>
  if s == "2025-06-15 14:30" then .ok ⟨1750000200, false⟩ else .error .valueError

/-- The inline keyboard built by `get_category_keyboard(user_id)`: one
button per category of the user, whose callback payload carries that
category id. -/
def category_keyboard_ids (db : DB) (uid : String) : List Nat :=
  (db.categories.filter fun c => c.user_id == uid).map (·.id)

/-- The draft accumulated by the create-event conversation before the
category step (all three fields are present whenever the conversation is
in the category state, since each earlier state only advances after
storing its field). -/
structure Draft where
  title : String
  description : String
  date_time : Int
deriving DecidableEq

/-- Callback payloads the source dispatches on: `"cat_<id>"` from a
category button, `"add_category"` from the extra button, anything else
from other keyboards. -/
inductive CallbackData
  | cat (id : Nat)
  | addCategory
  | other (s : String)
deriving DecidableEq

/-- Result of one `process_category` invocation. -/
inductive CommitOutcome
  | invalidCallback
  | committed (eid : Nat) (db : DB)
  | failed (db : DB)
deriving DecidableEq

/-- `process_category` from the source: fires on any callback payload
starting with `"cat_"` while the conversation is in the category state,
takes the id from the payload, and calls `create_event` with the draft —
with NO check that a category with that id exists.  A raised exception
from the insert is caught, reported generically and clears the state;
on success the event is committed and the state cleared. -/
def process_category (db : DB) (cb : Option CallbackData) (fromUser : Option String)
    (hasMessage : Bool) (draft : Draft) (created : DateTuple)
    (insertFails : Bool) : CommitOutcome :=
  match cb, fromUser, hasMessage with
  | some (.cat cid), some uid, true =>
    if insertFails then .failed db
    else
      let r := create_event db uid draft.title draft.description draft.date_time cid created
      .committed r.1 r.2
  | _, _, _ => .invalidCallback

/-- An inbound Telegram message as delivered to the dispatcher: the
fields the Bot API defines.  There is no `state` field — conversation
state lives in the `FSMContext`, not on the message object. -/
structure TgMessage where
  text : Option String
  from_user : Option TgUser
deriving DecidableEq

/-- The attribute access `message.state` performed by the filter guarding
`process_category_name`.  aiogram message objects are pydantic models
with no such field, so the access raises `AttributeError`. -/
def message_state_attr (_ : TgMessage) : Except PyExc String :=
  .error .attributeError

/-- The registration filter of `process_category_name`:
`lambda message: message.state == "add_category"`.  Evaluating it
requires the `message.state` attribute first, so it raises instead of
producing a boolean, and in particular never evaluates to `true` — the
handler behind it is unreachable. -/
def add_category_message_filter (m : TgMessage) : Except PyExc Bool :=
  (message_state_attr m).map (fun s => s == "add_category")

/-- Result of one `process_category_name` invocation (the handler body,
were it ever dispatched). -/
inductive AddCatOutcome
  | repromptEmpty
  | clearedNoUser
  | stored (db : DB)
  | failedInsert (db : DB)
deriving DecidableEq

/-- The body of `process_category_name` from the source: empty or
whitespace-only text re-prompts; otherwise the stripped name is inserted
as a new category owned by the sender, and the state is cleared (also on
an insert failure, which is reported generically). -/
def process_category_name (db : DB) (text : Option String) (fromUser : Option String)
    (created : DateTuple) (insertFails : Bool) : AddCatOutcome :=
  match text with
  | none => .repromptEmpty
  | some t =>
    if t == "" then .repromptEmpty
    else
      let name := t.trim
      if name == "" then .repromptEmpty
      else
        match fromUser with
        | none => .clearedNoUser
        | some uid =>
          if insertFails then .failedInsert db
          else .stored { db with
            categories := db.categories ++ [⟨db.nextId, uid, name, some created⟩],
            nextId := db.nextId + 1 }

/-- One line of the upcoming-events reply, as formatted by the
`upcoming_events` handler. -/
structure Entry where
  title : String
  categoryName : String
  date_time : Int
  description : String
deriving DecidableEq

/-- The rendering loop of the `upcoming_events` handler: for each event
of the query result, `db.categories.find_one({"_id": event
["category_id"]})`; only when a category is found is a block appended to
the reply — an event whose category id resolves to nothing contributes
no text at all. -/
def renderUpcoming (db : DB) (uid : String) (now : Int) : List Entry :=
  (get_upcoming_events db uid now).filterMap fun e =>
    (db.categories.find? fun c => c.id == e.category_id).map fun c =>
      ⟨e.title, c.name, e.date_time, e.description⟩

/-- The event document a given id resolves to: the first event of the
collection with that `_id` (what the next scanner query or any later read
observes for this id). -/
def findEvent (db : DB) (i : Nat) : Option Event :=
  db.events.find? fun e => e.id == i

theorem updateFirst_append_skip (p : α → Bool) (f : α → α) (l₁ l₂ : List α)
    (h : ∀ x ∈ l₁, p x = false) :
    updateFirst p f (l₁ ++ l₂) = l₁ ++ updateFirst p f l₂ := by
  induction l₁ with
  | nil => rfl
  | cons x xs ih =>
    have hx : p x = false := h x (List.mem_cons_self x xs)
    have hrest := ih fun y hy => h y (List.mem_cons_of_mem x hy)
    simp [updateFirst, hx, hrest]

theorem updateFirst_eq_self (p : α → Bool) (f : α → α) (l : List α)
    (h : ∀ x ∈ l, p x = true → f x = x) :
    updateFirst p f l = l := by
  induction l with
  | nil => rfl
  | cons x xs ih =>
    have hrest := ih fun y hy => h y (List.mem_cons_of_mem x hy)
    by_cases hx : p x = true
    · simp [updateFirst, hx, h x (List.mem_cons_self x xs) hx]
    · have hx' : p x = false := by simpa using hx
      simp [updateFirst, hx', hrest]

theorem find?_updateFirst_notified (l : List Event) (i j : Nat) :
    (updateFirst (notify_update_filter j) (fun e => { e with notified := true }) l).find?
        (fun e => e.id == i) =
      if i = j then (l.find? (fun e => e.id == i)).map (fun e => { e with notified := true })
      else l.find? (fun e => e.id == i) := by
  by_cases hij : i = j
  · subst hij
    simp only [if_pos rfl]
    induction l with
    | nil => rfl
    | cons x xs ih =>
      cases hx : (x.id == i) with
      | true => simp [updateFirst, notify_update_filter, hx, List.find?_cons]
      | false => simp [updateFirst, notify_update_filter, hx, List.find?_cons, ih]
  · simp only [if_neg hij]
    induction l with
    | nil => rfl
    | cons x xs ih =>
      cases hx : (x.id == j) with
      | true =>
        have hxj : x.id = j := by simpa using hx
        have hxi : (x.id == i) = false := by
          rw [hxj]; exact beq_eq_false_iff_ne.mpr (Ne.symm hij)
        simp [updateFirst, notify_update_filter, hx, List.find?_cons, hxi]
      | false =>
        cases hxi : (x.id == i) with
        | true => simp [updateFirst, notify_update_filter, hx, List.find?_cons, hxi]
        | false => simp [updateFirst, notify_update_filter, hx, List.find?_cons, hxi, ih]

theorem findEvent_mark (db : DB) (i j : Nat) :
    findEvent (mark_notified db j) i =
      if i = j then (findEvent db i).map (fun e => { e with notified := true })
      else findEvent db i :=
  find?_updateFirst_notified db.events i j

theorem mark_notified_categories (db : DB) (j : Nat) :
    (mark_notified db j).categories = db.categories := rfl

theorem find?_id_of_nodup (l : List Event) (e : Event)
    (hn : (l.map Event.id).Nodup) (he : e ∈ l) :
    l.find? (fun x => x.id == e.id) = some e := by
  induction l with
  | nil => cases he
  | cons x xs ih =>
    have hn2 : (∀ y ∈ xs, ¬y.id = x.id) ∧ (xs.map Event.id).Nodup := by simpa using hn
    rcases List.mem_cons.mp he with rfl | hmem
    · simp [List.find?_cons]
    · have hx : (x.id == e.id) = false :=
        beq_eq_false_iff_ne.mpr fun hc => hn2.1 e hmem hc.symm
      simp only [List.find?_cons, hx]
      exact ih hn2.2 hmem

theorem findEvent_of_nodup (db : DB) (e : Event)
    (hn : (db.events.map Event.id).Nodup) (he : e ∈ db.events) :
    findEvent db e.id = some e :=
  find?_id_of_nodup db.events e hn he

theorem runCycleAux_categories (env : Env) (evs : List Event) :
    ∀ (db : DB) (sent : List Nat),
      (runCycleAux env db sent evs).db.categories = db.categories := by
  induction evs with
  | nil => intro db sent; rfl
  | cons e rest ih =>
    intro db sent
    cases hr : env.findCatRaises e.id with
    | true => simp [runCycleAux, hr]
    | false =>
      cases hf : db.categories.find? (fun c => c.id == e.category_id) with
      | none => simp [runCycleAux, hr, hf, ih]
      | some c =>
        cases hs : env.sendFails e.id with
        | true => simp [runCycleAux, hr, hf, hs, ih]
        | false =>
          cases hu2 : env.updateFails e.id with
          | true => simp [runCycleAux, hr, hf, hs, hu2, ih]
          | false =>
            simp [runCycleAux, hr, hf, hs, hu2, ih, mark_notified_categories]

theorem runCycleAux_nocrash (env : Env) (evs : List Event)
    (h : ∀ x ∈ evs, env.findCatRaises x.id = false) :
    ∀ (db : DB) (sent : List Nat), (runCycleAux env db sent evs).crashed = false := by
  induction evs with
  | nil => intro db sent; rfl
  | cons e rest ih =>
    intro db sent
    have he : env.findCatRaises e.id = false := h e (List.mem_cons_self e rest)
    have hrest := ih fun x hx => h x (List.mem_cons_of_mem e hx)
    cases hf : db.categories.find? (fun c => c.id == e.category_id) with
    | none => simp [runCycleAux, he, hf, hrest]
    | some c =>
      cases hs : env.sendFails e.id with
      | true => simp [runCycleAux, he, hf, hs, hrest]
      | false =>
        cases hu2 : env.updateFails e.id with
        | true => simp [runCycleAux, he, hf, hs, hu2, hrest]
        | false => simp [runCycleAux, he, hf, hs, hu2, hrest]

theorem runCycleAux_findEvent (env : Env) (evs : List Event) (i : Nat)
    (h : ∀ x ∈ evs, x.id ≠ i) :
    ∀ (db : DB) (sent : List Nat),
      findEvent (runCycleAux env db sent evs).db i = findEvent db i := by
  induction evs with
  | nil => intro db sent; rfl
  | cons e rest ih =>
    intro db sent
    have he : e.id ≠ i := h e (List.mem_cons_self e rest)
    have hrest := ih fun x hx => h x (List.mem_cons_of_mem e hx)
    cases hr : env.findCatRaises e.id with
    | true => simp [runCycleAux, hr]
    | false =>
      cases hf : db.categories.find? (fun c => c.id == e.category_id) with
      | none => simp [runCycleAux, hr, hf, hrest]
      | some c =>
        cases hs : env.sendFails e.id with
        | true => simp [runCycleAux, hr, hf, hs, hrest]
        | false =>
          cases hu2 : env.updateFails e.id with
          | true => simp [runCycleAux, hr, hf, hs, hu2, hrest]
          | false =>
            have hmark : findEvent (mark_notified db e.id) i = findEvent db i := by
              rw [findEvent_mark, if_neg (Ne.symm he)]
            simp [runCycleAux, hr, hf, hs, hu2, hrest, hmark]

theorem runCycleAux_sent_mem (env : Env) (evs : List Event) (i : Nat)
    (h : ∀ x ∈ evs, x.id ≠ i) :
    ∀ (db : DB) (sent : List Nat),
      (i ∈ (runCycleAux env db sent evs).sent ↔ i ∈ sent) := by
  induction evs with
  | nil => intro db sent; exact Iff.rfl
  | cons e rest ih =>
    intro db sent
    have he : e.id ≠ i := h e (List.mem_cons_self e rest)
    have hrest := ih fun x hx => h x (List.mem_cons_of_mem e hx)
    cases hr : env.findCatRaises e.id with
    | true => simp [runCycleAux, hr]
    | false =>
      cases hf : db.categories.find? (fun c => c.id == e.category_id) with
      | none => simp [runCycleAux, hr, hf, hrest]
      | some c =>
        cases hs : env.sendFails e.id with
        | true => simp [runCycleAux, hr, hf, hs, hrest]
        | false =>
          have hne : i ≠ e.id := Ne.symm he
          cases hu2 : env.updateFails e.id with
          | true => simp [runCycleAux, hr, hf, hs, hu2, hrest, hne]
          | false => simp [runCycleAux, hr, hf, hs, hu2, hrest, hne]

theorem runCycleAux_append (env : Env) (l₁ l₂ : List Event)
    (h : ∀ x ∈ l₁, env.findCatRaises x.id = false) :
    ∀ (db : DB) (sent : List Nat),
      runCycleAux env db sent (l₁ ++ l₂) =
        runCycleAux env (runCycleAux env db sent l₁).db
          (runCycleAux env db sent l₁).sent l₂ := by
  induction l₁ with
  | nil => intro db sent; rfl
  | cons e rest ih =>
    intro db sent
    have he : env.findCatRaises e.id = false := h e (List.mem_cons_self e rest)
    have hrest := ih fun x hx => h x (List.mem_cons_of_mem e hx)
    cases hf : db.categories.find? (fun c => c.id == e.category_id) with
    | none => simp [runCycleAux, he, hf, hrest]
    | some c =>
      cases hs : env.sendFails e.id with
      | true => simp [runCycleAux, he, hf, hs, hrest]
      | false =>
        cases hu2 : env.updateFails e.id with
        | true => simp [runCycleAux, he, hf, hs, hu2, hrest]
        | false => simp [runCycleAux, he, hf, hs, hu2, hrest]

theorem runCycleAux_sent_ok (evs : List Event) :
    ∀ (db : DB) (sent : List Nat),
      (runCycleAux envOk db sent evs).sent =
        sent ++ (evs.filter fun e =>
          (db.categories.find? fun c => c.id == e.category_id).isSome).map (·.id) := by
  induction evs with
  | nil => intro db sent; simp [runCycleAux]
  | cons e rest ih =>
    intro db sent
    have hr : envOk.findCatRaises e.id = false := rfl
    have hs : envOk.sendFails e.id = false := rfl
    have hu2 : envOk.updateFails e.id = false := rfl
    cases hf : db.categories.find? (fun c => c.id == e.category_id) with
    | none => simp [runCycleAux, hr, hf, ih, List.filter_cons]
    | some c =>
      simp [runCycleAux, hr, hs, hu2, hf, ih, mark_notified_categories, List.filter_cons]

theorem mem_distinctsAux (l : List Nat) :
    ∀ (seen : List Nat) (c : Nat), c ∈ distinctsAux seen l ↔ (c ∈ l ∧ c ∉ seen) := by
  induction l with
  | nil => intro seen c; simp [distinctsAux]
  | cons d rest ih =>
    intro seen c
    by_cases hd : seen.contains d = true
    · have hdm : d ∈ seen := by simpa using hd
      rw [distinctsAux, if_pos hd, ih]
      constructor
      · exact fun h => ⟨List.mem_cons_of_mem d h.1, h.2⟩
      · rintro ⟨h1, h2⟩
        rcases List.mem_cons.mp h1 with rfl | h1
        · exact absurd hdm h2
        · exact ⟨h1, h2⟩
    · have hdm : d ∉ seen := by simpa using hd
      rw [distinctsAux, if_neg hd]
      constructor
      · intro h
        rcases List.mem_cons.mp h with rfl | h
        · exact ⟨List.mem_cons_self c rest, hdm⟩
        · have := (ih (d :: seen) c).mp h
          refine ⟨List.mem_cons_of_mem d this.1, fun hc => this.2 (List.mem_cons_of_mem d hc)⟩
      · rintro ⟨h1, h2⟩
        by_cases hcd : c = d
        · exact hcd ▸ List.mem_cons_self c _
        · rcases List.mem_cons.mp h1 with rfl | h1
          · exact absurd rfl hcd
          · refine List.mem_cons_of_mem d ((ih (d :: seen) c).mpr ⟨h1, fun hc => ?_⟩)
            rcases List.mem_cons.mp hc with rfl | hc
            · exact hcd rfl
            · exact h2 hc

theorem mem_distincts (l : List Nat) (c : Nat) : c ∈ distinctsAux [] l ↔ c ∈ l := by
  simp [mem_distinctsAux]

theorem mem_category_groups (db : DB) (uid : String) (g : Nat × Nat) :
    g ∈ category_groups db uid ↔
      g.1 ∈ (userEvents db uid).map (fun e => e.category_id) ∧
      g.2 = ((userEvents db uid).filter fun e => e.category_id == g.1).length := by
  unfold category_groups
  rw [List.mem_map]
  constructor
  · rintro ⟨c, hc, rfl⟩
    exact ⟨(mem_distincts _ _).mp hc, rfl⟩
  · rintro ⟨h1, h2⟩
    refine ⟨g.1, (mem_distincts _ _).mpr h1, ?_⟩
    cases g with
    | mk a b => simpa using h2.symm

theorem get_statistics_month (db : DB) (uid : String) (now : DateTuple) :
    (get_statistics db uid now).events_this_month =
      (db.events.filter fun e =>
        e.user_id == uid && (start_of_month now).leb e.created_at).length := by
  cases h : (sorted_groups db uid).head? with
  | none => simp [get_statistics, h]
  | some g =>
    obtain ⟨c, n⟩ := g
    cases h2 : db.categories.find? (fun cat => cat.id == c) with
    | none => simp [get_statistics, h, h2]
    | some cat => simp [get_statistics, h, h2]

theorem get_statistics_no_events (db : DB) (uid : String) (now : DateTuple)
    (h : userEvents db uid = []) :
    (get_statistics db uid now).most_used_category = "None" ∧
    (get_statistics db uid now).most_used_count = 0 := by
  have hg : category_groups db uid = [] := by
    simp [category_groups, h, distinctsAux]
  have hsrt : sorted_groups db uid = [] := by
    simp [sorted_groups, hg, List.insertionSort]
  simp [get_statistics, hsrt]

/-- Whether the single group surviving the `$limit: 1` stage of the
statistics aggregation (the top group, if any) carries a category id
that resolves against the `categories` collection — the condition under
which the `$lookup`/`$unwind` join keeps it.  Vacuously true when there
is no group at all. -/
def top_group_resolves (db : DB) (uid : String) : Bool :=
  match (sorted_groups db uid).head? with
  | none => true
  | some g => (db.categories.find? fun cat => cat.id == g.1).isSome

theorem get_statistics_top (db : DB) (uid : String) (now : DateTuple)
    (hne : userEvents db uid ≠ [])
    (hres : top_group_resolves db uid = true) :
    ∃ cat ∈ db.categories,
      (get_statistics db uid now).most_used_category = cat.name ∧
      (get_statistics db uid now).most_used_count =
        ((userEvents db uid).filter fun e => e.category_id == cat.id).length ∧
      ∀ cid : Nat,
        ((userEvents db uid).filter fun e => e.category_id == cid).length ≤
          (get_statistics db uid now).most_used_count := by
  obtain ⟨e0, he0⟩ := List.exists_mem_of_ne_nil _ hne
  have hg_ne : category_groups db uid ≠ [] := by
    intro hg
    have hid : e0.category_id ∈ (userEvents db uid).map (fun e => e.category_id) :=
      List.mem_map_of_mem _ he0
    have hd := (mem_distincts ((userEvents db uid).map fun e => e.category_id)
      e0.category_id).mpr hid
    rw [category_groups, List.map_eq_nil_iff] at hg
    rw [hg] at hd
    cases hd
  have hsg_ne : sorted_groups db uid ≠ [] := by
    intro h
    have hlen := (List.perm_insertionSort byCountDesc (category_groups db uid)).length_eq
    rw [show List.insertionSort byCountDesc (category_groups db uid) = sorted_groups db uid
      from rfl, h] at hlen
    exact hg_ne (List.eq_nil_of_length_eq_zero hlen.symm)
  cases hsg : sorted_groups db uid with
  | nil => exact absurd hsg hsg_ne
  | cons top tl =>
    obtain ⟨c, n⟩ := top
    have htop_mem : (c, n) ∈ category_groups db uid := by
      have : (c, n) ∈ sorted_groups db uid := hsg ▸ List.mem_cons_self _ _
      exact (List.mem_insertionSort byCountDesc).mp this
    obtain ⟨hc_ids, hn⟩ := (mem_category_groups db uid (c, n)).mp htop_mem
    have hn' : n = ((userEvents db uid).filter fun e => e.category_id == c).length := by
      simpa using hn
    have hfind_some : (db.categories.find? fun cat => cat.id == c).isSome = true := by
      rw [top_group_resolves, hsg] at hres
      simpa using hres
    obtain ⟨cat, hfind⟩ := Option.isSome_iff_exists.mp hfind_some
    have hcat_mem : cat ∈ db.categories := List.mem_of_find?_eq_some hfind
    have hcat_id : cat.id = c := by simpa using List.find?_some hfind
    have h1 : (get_statistics db uid now).most_used_category = cat.name := by
      simp [get_statistics, hsg, hfind]
    have h2 : (get_statistics db uid now).most_used_count = n := by
      simp [get_statistics, hsg, hfind]
    refine ⟨cat, hcat_mem, h1, ?_, ?_⟩
    · rw [h2, hcat_id]
      exact hn' 
    · intro cid
      by_cases hz : ((userEvents db uid).filter fun e => e.category_id == cid) = []
      · rw [hz, h2]
        exact Nat.zero_le n
      · obtain ⟨e2, he2⟩ := List.exists_mem_of_ne_nil _ hz
        have he2' := List.mem_filter.mp he2
        have hcid_ids : cid ∈ (userEvents db uid).map (fun e => e.category_id) :=
          List.mem_map.mpr ⟨e2, he2'.1, by simpa using he2'.2⟩
        have hpair : (cid, ((userEvents db uid).filter
            fun e => e.category_id == cid).length) ∈ category_groups db uid :=
          (mem_category_groups db uid _).mpr ⟨hcid_ids, rfl⟩
        have hpair_sorted : (cid, ((userEvents db uid).filter
            fun e => e.category_id == cid).length) ∈ sorted_groups db uid :=
          (List.mem_insertionSort byCountDesc).mpr hpair
        rw [hsg] at hpair_sorted
        have hsorted : List.Sorted byCountDesc (sorted_groups db uid) :=
          List.sorted_insertionSort byCountDesc (category_groups db uid)
        rw [hsg] at hsorted
        rcases List.mem_cons.mp hpair_sorted with heq | htl
        · have : ((userEvents db uid).filter fun e => e.category_id == cid).length = n := by
            have := congrArg Prod.snd heq
            simpa using this
          rw [this, h2]
        · have hrel := List.rel_of_sorted_cons hsorted _ htl
          rw [h2]
          exact hrel

theorem register_user_fresh (db : DB) (u : TgUser) (now : DateTuple)
    (hu : ∀ x ∈ db.users, (x.user_id == u.id) = false)
    (hc : ∀ c ∈ db.categories, (c.user_id == u.id) = false) :
    register_user db u now =
      { users := db.users ++ [⟨u.id, u.username, u.first_name, u.last_name, now⟩],
        categories := db.categories ++
          [⟨db.nextId, u.id, "Work", none⟩, ⟨db.nextId + 1, u.id, "Personal", none⟩,
           ⟨db.nextId + 2, u.id, "Health", none⟩, ⟨db.nextId + 3, u.id, "Other", none⟩],
        events := db.events, nextId := db.nextId + 4 } := by
  have hbase : ∀ name : String,
      db.categories.any (fun c => c.user_id == u.id && c.name == name) = false := by
    intro name
    rw [List.any_eq_false]
    intro c hcm
    simp [hc c hcm]
  have hanyu : db.users.any (fun x => x.user_id == u.id) = false := by
    rw [List.any_eq_false]
    intro x hx
    simp [hu x hx]
  have e1 : upsertUserDoc db u now =
      { db with users := db.users ++ [⟨u.id, u.username, u.first_name, u.last_name, now⟩] } := by
    simp [upsertUserDoc, hanyu]
  have hseed : ∀ (d : DB) (name : String),
      d.categories.any (fun c => c.user_id == u.id && c.name == name) = false →
      seedCategory d u.id name =
        { d with categories := d.categories ++ [⟨d.nextId, u.id, name, none⟩],
                 nextId := d.nextId + 1 } := by
    intro d name h
    simp [seedCategory, h]
  rw [register_user, e1]
  simp only [List.foldl]
  rw [hseed _ "Work" (by simpa using hbase "Work")]
  rw [hseed _ "Personal" (by simp [List.any_append, hbase "Personal"])]
  rw [hseed _ "Health" (by simp [List.any_append, hbase "Health"])]
  rw [hseed _ "Other" (by simp [List.any_append, hbase "Other"])]
  simp [List.append_assoc, Nat.add_assoc]

theorem register_user_twice (db : DB) (u : TgUser) (now now2 : DateTuple)
    (hu : ∀ x ∈ db.users, (x.user_id == u.id) = false)
    (hc : ∀ c ∈ db.categories, (c.user_id == u.id) = false) :
    register_user (register_user db u now) u now2 =
      { users := db.users ++ [⟨u.id, u.username, u.first_name, u.last_name, now2⟩],
        categories := db.categories ++
          [⟨db.nextId, u.id, "Work", none⟩, ⟨db.nextId + 1, u.id, "Personal", none⟩,
           ⟨db.nextId + 2, u.id, "Health", none⟩, ⟨db.nextId + 3, u.id, "Other", none⟩],
        events := db.events, nextId := db.nextId + 4 } := by
  have hseed_id : ∀ (d : DB) (name : String),
      d.categories.any (fun c => c.user_id == u.id && c.name == name) = true →
      seedCategory d u.id name = d := by
    intro d name hany
    have hup : updateFirst (fun c => c.user_id == u.id && c.name == name)
        (fun c => { c with name := name }) d.categories = d.categories := by
      refine updateFirst_eq_self _ _ _ fun c hcm hpc => ?_
      have hpc' : c.user_id = u.id ∧ c.name = name := by simpa using hpc
      have h2 : c.name = name := hpc'.2
      cases c
      simp_all
    simp [seedCategory, hany, hup]
  rw [register_user_fresh db u now hu hc, register_user]
  have hupd : upsertUserDoc
      { users := db.users ++ [⟨u.id, u.username, u.first_name, u.last_name, now⟩],
        categories := db.categories ++
          [⟨db.nextId, u.id, "Work", none⟩, ⟨db.nextId + 1, u.id, "Personal", none⟩,
           ⟨db.nextId + 2, u.id, "Health", none⟩, ⟨db.nextId + 3, u.id, "Other", none⟩],
        events := db.events, nextId := db.nextId + 4 } u now2 =
      { users := db.users ++ [⟨u.id, u.username, u.first_name, u.last_name, now2⟩],
        categories := db.categories ++
          [⟨db.nextId, u.id, "Work", none⟩, ⟨db.nextId + 1, u.id, "Personal", none⟩,
           ⟨db.nextId + 2, u.id, "Health", none⟩, ⟨db.nextId + 3, u.id, "Other", none⟩],
        events := db.events, nextId := db.nextId + 4 } := by
    have hany : (db.users ++ [(⟨u.id, u.username, u.first_name, u.last_name, now⟩ : UserRec)]).any
        (fun x => x.user_id == u.id) = true := by simp
    have hupf : updateFirst (fun x => x.user_id == u.id)
        (fun x => { x with username := u.username, first_name := u.first_name,
                           last_name := u.last_name, created_at := now2 })
        (db.users ++ [⟨u.id, u.username, u.first_name, u.last_name, now⟩]) =
        db.users ++ [⟨u.id, u.username, u.first_name, u.last_name, now2⟩] := by
      rw [updateFirst_append_skip _ _ _ _ hu]
      simp [updateFirst]
    simp [upsertUserDoc, hany, hupf]
  rw [hupd]
  simp only [List.foldl]
  rw [hseed_id _ "Work" (by simp)]
  rw [hseed_id _ "Personal" (by simp)]
  rw [hseed_id _ "Health" (by simp)]
  rw [hseed_id _ "Other" (by simp)]

/-- Fixture instant used by the concrete scenarios below. -/
def t0 : DateTuple := ⟨2026, 10, 12, 0, 0, 0, 0⟩

/-- Fixture Telegram user. -/
def u5 : TgUser := ⟨"5", none, "F", none⟩

/-- Fixture category owned by user "5". -/
def cat10 : Category := ⟨10, "5", "Work", none⟩

/-- Fixture event of user "5" in category 10, due and unnotified. -/
def ev1 : Event := ⟨1, "5", "A", "a", 100, 10, t0, false⟩

/-- Second fixture event of user "5" in category 10, due and unnotified. -/
def ev2 : Event := ⟨2, "5", "B", "b", 100, 10, t0, false⟩

/-- Fixture database with two due events and their category present. -/
def db2x : DB := ⟨[], [cat10], [ev1, ev2], 50⟩

/-- Environment in which the category lookup for event 1 raises. -/
def env2x : Env := ⟨fun i => i == 1, fun _ => false, fun _ => false⟩

/-- Fixture database with one due event whose category exists. -/
def db4 : DB := ⟨[], [cat10], [ev1], 50⟩

/-- Environment in which delivery succeeds but the notified update for
event 1 raises. -/
def env4 : Env := ⟨fun _ => false, fun _ => false, fun i => i == 1⟩

/-- A general fact behind claim C1: whenever the parse step returns a
naive datetime (which dateutil does for any input without an explicit
offset), `process_date_time` raises `TypeError` out of the handler,
because the comparison with the aware now is not covered by the
`except ValueError` clause. -/
theorem process_date_time_naive_always_crashes
    (parse : String → Except PyExc PyDT) (now : Int) (t : String) (fu : Option String)
    (dt : PyDT) (hne : (t == "") = false) (hp : parse t = .ok dt)
    (hna : dt.aware = false) :
    process_date_time parse now (some t) fu = .crash .typeError := by
  simp [process_date_time, hne, hp, pyLtNow, hna]

/-- C1: the spec claims that in the AwaitingDateTime state every text
input either re-prompts and stays (empty, unparsable, or not strictly
future) or advances to AwaitingCategory, and that no input to this step
ever surfaces as a crash.  The code violates this: the exact example
format the handler itself suggests, "2025-06-15 14:30", parses to a
NAIVE datetime, and comparing it with the aware `datetime.now(pytz.UTC)`
raises a `TypeError` that the surrounding `except ValueError` does not
catch, so the handler crashes instead of advancing (here the parsed
instant is even strictly in the future of the given now). -/
theorem c1_future_example_input_crashes_handler :
    process_date_time parse_dateutil_example 1749000000
      (some "2025-06-15 14:30") (some "5") = .crash .typeError := by decide

/-- C2 counterexample: in a cycle with two due candidates, a raised
exception from the per-event category lookup of the first candidate
(which the source performs OUTSIDE its try block) terminates the scanner,
delivers nothing, and leaves the second candidate unprocessed —
refuting the claim that no per-event error ends the loop or aborts the
remaining candidates. -/
theorem c2_counterexample_lookup_crash_aborts_cycle :
    (reminder_cycle db2x env2x 0).crashed = true ∧
    (reminder_cycle db2x env2x 0).sent = [] ∧
    ev2 ∈ scanCandidates db2x 0 ∧
    (reminder_cycle db2x env2x 0).db = db2x := by decide

/-- C2 (amended): as long as no per-event category lookup raises, every
other per-event failure (delivery failure, notified-update failure) is
caught inside the try block, so the scanner cycle never crashes and
processes every candidate. -/
theorem c2_amended_failures_inside_try_are_isolated (db : DB) (env : Env) (now : Int)
    (h : ∀ e ∈ scanCandidates db now, env.findCatRaises e.id = false) :
    (reminder_cycle db env now).crashed = false :=
  runCycleAux_nocrash env (scanCandidates db now) h db []

/-- Witness for the amended C2 at a concrete database and environment. -/
theorem c2_amended_witness : (reminder_cycle db4 envOk 0).crashed = false :=
  c2_amended_failures_inside_try_are_isolated db4 envOk 0 (fun _ _ => rfl)

/-- C4 counterexample: delivery of event 1 succeeds (it appears in the
sent list) but the following notified update raises; the exception is
caught by the same except clause, the scanner moves on without crashing,
and the event`s notified flag is still false — refuting the claim that a
successful delivery is always followed by a durable notified=true before
moving on. -/
theorem c4_counterexample_update_failure_after_delivery :
    (reminder_cycle db4 env4 0).sent = [1] ∧
    (reminder_cycle db4 env4 0).crashed = false ∧
    (reminder_cycle db4 env4 0).db.events.map (fun e => e.notified) = [false] := by decide

/-- Fixture event that is already notified. -/
def evN : Event := ⟨1, "5", "A", "a", 100, 10, t0, true⟩

/-- C3 counterexample: the filter of the notified write used by the
source matches an event whose notified flag is already true (it has no
precondition on the flag), whereas the conditional filter the spec
demands rejects it; moreover, under the interleaving in which two scan
cycles both read the candidate list before either writes, the same event
is delivered twice even with no failures — refuting the claim that the
write is an atomic conditional update preventing a double delivery. -/
theorem c3_counterexample_unconditional_write :
    notify_update_filter 1 evN = true ∧
    notify_update_filter_spec 1 evN = false ∧
    (interleaved_two_scans db4 envOk 0).sent = [1, 1] := by decide

/-- C3 (amended): the notified write of the source is a single
per-document update keyed by id only; deduplication rests entirely on
the candidate query that ran earlier in the cycle (a read-then-write
pair), so any due event with a resolvable category is delivered exactly
twice when two failure-free scan cycles interleave with both reads
before either write. -/
theorem c3_amended_interleaved_scans_deliver_twice (db : DB) (now : Int) (e : Event)
    (hn : (db.events.map (fun x => x.id)).Nodup)
    (hmem : e ∈ scanCandidates db now)
    (hcat : (db.categories.find? fun c => c.id == e.category_id).isSome = true) :
    (interleaved_two_scans db envOk now).sent.count e.id = 2 := by
  have h1 : (runCycleAux envOk db [] (scanCandidates db now)).sent =
      ((scanCandidates db now).filter fun x =>
        (db.categories.find? fun c => c.id == x.category_id).isSome).map (·.id) := by
    simpa using runCycleAux_sent_ok (scanCandidates db now) db []
  have hcats : (runCycleAux envOk db [] (scanCandidates db now)).db.categories =
      db.categories := runCycleAux_categories envOk (scanCandidates db now) db []
  have h2 : (runCycleAux envOk (runCycleAux envOk db [] (scanCandidates db now)).db []
      (scanCandidates db now)).sent =
      ((scanCandidates db now).filter fun x =>
        (db.categories.find? fun c => c.id == x.category_id).isSome).map (·.id) := by
    rw [runCycleAux_sent_ok (scanCandidates db now) _ [], hcats]
    simp
  have hnodup : (((scanCandidates db now).filter fun x =>
      (db.categories.find? fun c => c.id == x.category_id).isSome).map (·.id)).Nodup := by
    have hsub : (((scanCandidates db now).filter fun x =>
        (db.categories.find? fun c => c.id == x.category_id).isSome).map (·.id)).Sublist
        (db.events.map fun x => x.id) :=
      ((List.filter_sublist _).trans (List.filter_sublist _)).map _
    exact hn.sublist hsub
  have hmem2 : e.id ∈ ((scanCandidates db now).filter fun x =>
      (db.categories.find? fun c => c.id == x.category_id).isSome).map (·.id) :=
    List.mem_map.mpr ⟨e, List.mem_filter.mpr ⟨hmem, hcat⟩, rfl⟩
  have hcount := List.count_eq_one_of_mem hnodup hmem2
  show ((runCycleAux envOk db [] (scanCandidates db now)).sent ++
      (runCycleAux envOk (runCycleAux envOk db [] (scanCandidates db now)).db []
        (scanCandidates db now)).sent).count e.id = 2
  rw [List.count_append, h1, h2, hcount]

/-- Witness for the amended C3 at a concrete database: the due event 1
with an existing category is delivered twice by the interleaved scans. -/
theorem c3_amended_witness : (interleaved_two_scans db4 envOk 0).sent.count 1 = 2 :=
  c3_amended_interleaved_scans_deliver_twice db4 0 ev1 (by decide) (by decide) (by decide)

/-- C4 (amended): for a candidate event with a resolvable category, in a
cycle in which no category lookup raises: if its delivery fails, the
failure is caught, the event keeps notified = false and it is not
recorded as sent (so the next cycle retries it); if its delivery and the
following update both succeed, the event ends the cycle with notified =
true and is recorded as sent.  (The original claim fails when the update
raises after a successful delivery — see the counterexample.) -/
theorem c4_amended_delivery_outcomes (db : DB) (env : Env) (now : Int) (e : Event)
    (hn : (db.events.map (fun x => x.id)).Nodup)
    (hmem : e ∈ scanCandidates db now)
    (hcat : (db.categories.find? fun c => c.id == e.category_id).isSome = true)
    (hnoraise : ∀ x ∈ scanCandidates db now, env.findCatRaises x.id = false) :
    (env.sendFails e.id = true →
      findEvent (reminder_cycle db env now).db e.id = some e ∧
      e.id ∉ (reminder_cycle db env now).sent) ∧
    (env.sendFails e.id = false → env.updateFails e.id = false →
      findEvent (reminder_cycle db env now).db e.id = some { e with notified := true } ∧
      e.id ∈ (reminder_cycle db env now).sent) := by
  obtain ⟨pre, suf, hsplit⟩ := List.append_of_mem hmem
  have hn_c : ((scanCandidates db now).map (fun x => x.id)).Nodup := by
    have hsub : ((scanCandidates db now).map fun x => x.id).Sublist
        (db.events.map fun x => x.id) := (List.filter_sublist _).map _
    exact hn.sublist hsub
  rw [hsplit, List.map_append, List.map_cons, List.nodup_append] at hn_c
  obtain ⟨hnpre, hncons, hdisj⟩ := hn_c
  have hpre : ∀ x ∈ pre, x.id ≠ e.id := by
    intro x hx hc
    exact hdisj (List.mem_map_of_mem _ hx) (by rw [hc]; exact List.mem_cons_self _ _)
  have hsuf : ∀ x ∈ suf, x.id ≠ e.id := by
    intro x hx hc
    have : e.id ∈ suf.map (fun y => y.id) := by
      rw [← hc]; exact List.mem_map_of_mem _ hx
    exact (List.nodup_cons.mp hncons).1 this
  have hmem_ev : e ∈ db.events := (List.mem_filter.mp hmem).1
  have hfind_db : findEvent db e.id = some e := findEvent_of_nodup db e hn hmem_ev
  have hpre_noraise : ∀ x ∈ pre, env.findCatRaises x.id = false := fun x hx =>
    hnoraise x (by rw [hsplit]; exact List.mem_append_left _ hx)
  have hcyc : reminder_cycle db env now =
      runCycleAux env (runCycleAux env db [] pre).db
        (runCycleAux env db [] pre).sent (e :: suf) := by
    rw [reminder_cycle, hsplit, runCycleAux_append env pre (e :: suf) hpre_noraise]
  have hfind_M : findEvent (runCycleAux env db [] pre).db e.id = some e := by
    rw [runCycleAux_findEvent env pre e.id hpre db []]
    exact hfind_db
  have hsent_M : (e.id ∈ (runCycleAux env db [] pre).sent) ↔ False := by
    rw [runCycleAux_sent_mem env pre e.id hpre db []]
    simp
  have hcats_M : (runCycleAux env db [] pre).db.categories = db.categories :=
    runCycleAux_categories env pre db []
  obtain ⟨c0, hc0⟩ := Option.isSome_iff_exists.mp hcat
  have hfm : (runCycleAux env db [] pre).db.categories.find?
      (fun c => c.id == e.category_id) = some c0 := by
    rw [hcats_M]
    exact hc0
  have hre : env.findCatRaises e.id = false :=
    hnoraise e (by rw [hsplit]; exact List.mem_append_right _ (List.mem_cons_self _ _))
  constructor
  · intro hsend
    rw [hcyc]
    simp only [runCycleAux, hre, hfm, hsend, Bool.false_eq_true, if_false, if_true]
    constructor
    · rw [runCycleAux_findEvent env suf e.id hsuf]
      exact hfind_M
    · rw [runCycleAux_sent_mem env suf e.id hsuf, hsent_M]
      exact not_false
  · intro hsend hupd
    rw [hcyc]
    simp only [runCycleAux, hre, hfm, hsend, hupd, Bool.false_eq_true, if_false]
    constructor
    · rw [runCycleAux_findEvent env suf e.id hsuf, findEvent_mark, if_pos rfl, hfind_M]
      rfl
    · rw [runCycleAux_sent_mem env suf e.id hsuf]
      simp

/-- Witness for the amended C4 at a concrete database and environment:
with a failing delivery for event 1, the event stays unnotified and
unsent. -/
theorem c4_amended_witness :
    findEvent (reminder_cycle db4 ⟨fun _ => false, fun _ => true, fun _ => false⟩ 0).db 1 =
      some ev1 ∧
    1 ∉ (reminder_cycle db4 ⟨fun _ => false, fun _ => true, fun _ => false⟩ 0).sent :=
  (c4_amended_delivery_outcomes db4 ⟨fun _ => false, fun _ => true, fun _ => false⟩ 0 ev1
    (by decide) (by decide) (by decide) (fun _ _ => rfl)).1 rfl

/-- C5: the spec claims the add-category flow stores a new category on
non-empty input and returns to Idle.  The code cannot perform this flow
at all: `add_category_start` stores the conversation state in the
`FSMContext`, but the handler meant to consume the next message is
guarded by `lambda message: message.state == "add_category"`, and
Telegram message objects have no `state` attribute — the filter raises
`AttributeError` on every message (shown here on the concrete message
"Gym") and in particular never evaluates to true, so
`process_category_name` is unreachable and no category is ever stored by
this flow. -/
theorem c5_add_category_handler_unreachable :
    add_category_message_filter ⟨some "Gym", some u5⟩ = .error .attributeError ∧
    ∀ m : TgMessage, add_category_message_filter m ≠ .ok true := by
  refine ⟨rfl, ?_⟩
  intro m h
  simp [add_category_message_filter, message_state_attr, Except.map] at h

/-- Fixture empty database. -/
def db6 : DB := ⟨[], [], [], 0⟩

/-- The database produced by committing a draft against the nonexistent
category id 7. -/
def db6res : DB := ⟨[], [], [⟨0, "5", "T", "D", 400, 7, t0, false⟩], 1⟩

/-- C6 counterexample: `process_category` fires on any callback payload
of the form `cat_<id>` and performs no existence check on the id, so a
callback carrying an id that matches no category document commits an
event whose category reference is dangling already at creation time —
refuting the claim that every committed event referenced an existing
category at creation. -/
theorem c6_counterexample_dangling_commit :
    process_category db6 (some (.cat 7)) (some "5") true ⟨"T", "D", 400⟩ t0 false =
      .committed 0 db6res ∧
    db6res.categories.find? (fun c => c.id == 7) = none ∧
    db6res.events.map (fun e => e.category_id) = [7] := by decide

/-- C6 (amended): the commit inserts an event referencing exactly the id
carried by the callback, unvalidated; when that id comes from the
category keyboard the source offers (which lists only the existing
categories of the user, and categories are never deleted), the committed
reference does denote a category existing at creation time. -/
theorem c6_amended_keyboard_commit_valid (db : DB) (uid : String) (draft : Draft)
    (created : DateTuple) (cid : Nat)
    (h : cid ∈ category_keyboard_ids db uid) :
    ∃ c ∈ db.categories, c.id = cid ∧ c.user_id = uid ∧
      process_category db (some (.cat cid)) (some uid) true draft created false =
        .committed db.nextId
          { db with
              events := db.events ++
                [⟨db.nextId, uid, draft.title, draft.description, draft.date_time, cid,
                  created, false⟩],
              nextId := db.nextId + 1 } := by
  obtain ⟨c, hcm, hcid⟩ := List.mem_map.mp h
  have hcm' := List.mem_filter.mp hcm
  exact ⟨c, hcm'.1, hcid, by simpa using hcm'.2, rfl⟩

/-- Fixture database holding one category of user "5". -/
def dbC : DB := ⟨[], [⟨3, "5", "Work", none⟩], [], 4⟩

/-- Witness for the amended C6 at a concrete database and keyboard id. -/
theorem c6_amended_witness :
    ∃ c ∈ dbC.categories, c.id = 3 ∧ c.user_id = "5" ∧
      process_category dbC (some (.cat 3)) (some "5") true ⟨"T", "D", 500⟩ t0 false =
        .committed dbC.nextId
          { dbC with
              events := dbC.events ++ [⟨dbC.nextId, "5", "T", "D", 500, 3, t0, false⟩],
              nextId := dbC.nextId + 1 } :=
  c6_amended_keyboard_commit_valid dbC "5" ⟨"T", "D", 500⟩ t0 3 (by decide)

/-- C7: registering the same user twice, starting from a database with
no records for that user, leaves exactly one user document for that user
and exactly the four default categories Work, Personal, Health, Other —
the second run only overwrites the profile fields and re-matches the
seeded categories instead of duplicating anything. -/
theorem c7_registration_idempotent (db : DB) (u : TgUser) (now now2 : DateTuple)
    (hu : db.users.filter (fun x => x.user_id == u.id) = [])
    (hc : db.categories.filter (fun c => c.user_id == u.id) = []) :
    ((register_user (register_user db u now) u now2).users.filter
        (fun x => x.user_id == u.id)).length = 1 ∧
    ((register_user (register_user db u now) u now2).categories.filter
        (fun c => c.user_id == u.id)).map (fun c => c.name) =
      ["Work", "Personal", "Health", "Other"] := by
  have hu' : ∀ x ∈ db.users, (x.user_id == u.id) = false := by
    intro x hx
    have := List.filter_eq_nil_iff.mp hu x hx
    simpa using this
  have hc' : ∀ c ∈ db.categories, (c.user_id == u.id) = false := by
    intro c hcm
    have := List.filter_eq_nil_iff.mp hc c hcm
    simpa using this
  rw [register_user_twice db u now now2 hu' hc']
  constructor
  · simp [List.filter_append, hu]
  · simp [List.filter_append, hc]

/-- Witness for C7 at a concrete fresh database and user. -/
theorem c7_witness :
    ((register_user (register_user db6 u5 t0) u5 t0).users.filter
        (fun x => x.user_id == u5.id)).length = 1 ∧
    ((register_user (register_user db6 u5 t0) u5 t0).categories.filter
        (fun c => c.user_id == u5.id)).map (fun c => c.name) =
      ["Work", "Personal", "Health", "Other"] :=
  c7_registration_idempotent db6 u5 t0 t0 rfl rfl

/-- C8: creating an event with future date-time and an existing category
and then querying upcoming events returns an entry whose title,
description, date-time and (resolved) category name match what was
submitted, with notified = false; moreover the upcoming-events query
always returns exactly the user events with scheduled time at or after
now and notified = false (a permutation of that filter), sorted
ascending by scheduled time, with no count limit. -/
theorem c8_roundtrip_and_query_semantics (db : DB) (uid t d : String) (dt : Int)
    (cid : Nat) (cat : Category) (now : Int) (created : DateTuple)
    (hcat : db.categories.find? (fun c => c.id == cid) = some cat)
    (hfut : now ≤ dt) :
    (∃ e ∈ get_upcoming_events (create_event db uid t d dt cid created).2 uid now,
        e.title = t ∧ e.description = d ∧ e.date_time = dt ∧ e.notified = false ∧
        ∃ c, ((create_event db uid t d dt cid created).2.categories.find?
            fun c2 => c2.id == e.category_id) = some c ∧ c.name = cat.name) ∧
    ∀ (db2 : DB) (uid2 : String) (now2 : Int),
      (get_upcoming_events db2 uid2 now2).Perm
        (db2.events.filter fun e =>
          e.user_id == uid2 && decide (now2 ≤ e.date_time) && !e.notified) ∧
      List.Sorted byTimeAsc (get_upcoming_events db2 uid2 now2) := by
  constructor
  · refine ⟨⟨db.nextId, uid, t, d, dt, cid, created, false⟩, ?_, rfl, rfl, rfl, rfl,
      cat, hcat, rfl⟩
    apply (List.mem_insertionSort byTimeAsc).mpr
    apply List.mem_filter.mpr
    constructor
    · simp [create_event]
    · simp [hfut]
  · intro db2 uid2 now2
    exact ⟨List.perm_insertionSort byTimeAsc _, List.sorted_insertionSort byTimeAsc _⟩

/-- Witness for C8 at a concrete database, event and category. -/
theorem c8_witness :
    ∃ e ∈ get_upcoming_events (create_event dbC "5" "T" "D" 500 3 t0).2 "5" 0,
      e.title = "T" ∧ e.description = "D" ∧ e.date_time = 500 ∧ e.notified = false ∧
      ∃ c, ((create_event dbC "5" "T" "D" 500 3 t0).2.categories.find?
          fun c2 => c2.id == e.category_id) = some c ∧ c.name = "Work" :=
  (c8_roundtrip_and_query_semantics dbC "5" "T" "D" 500 3 ⟨3, "5", "Work", none⟩ 0 t0
    rfl (by decide)).1

/-- Fixture event of user "5" whose category id 99 matches no category. -/
def ev9 : Event := ⟨1, "5", "A", "a", 100, 99, t0, false⟩

/-- Fixture database in which the only event of user "5" references the
nonexistent category 99. -/
def db9 : DB := ⟨[], [], [ev9], 10⟩

/-- C9 counterexample: the statistics aggregation applies `$limit: 1`
before the `$lookup`/`$unwind` join, so when the most-used category id
does not resolve to a category document the single surviving group is
dropped and the source returns the sentinel ("None", 0) even though the
user does have events — refuting the claim that the sentinel is returned
if and only if the user has no events at all. -/
theorem c9_counterexample_sentinel_with_events :
    get_statistics db9 "5" t0 = ⟨1, "None", 0⟩ ∧ userEvents db9 "5" ≠ [] := by decide

/-- C9 (amended): the statistics operation returns (a) the count of the
user events whose creation timestamp is at or after the start of the
current calendar month, and (b) the sentinel ("None", 0) when the user
has no events; when the user has events and the top aggregation group
(the one surviving `$limit: 1`) carries a category id that resolves to
an existing category — other events of the user may reference dangling
ids — it returns the name of that category, which has the most events
among the user events, together with that maximal count.  (When the top
group itself carries a dangling category id the sentinel is returned
even though events exist — see the counterexample.) -/
theorem c9_amended_statistics (db : DB) (uid : String) (now : DateTuple) :
    ((get_statistics db uid now).events_this_month =
      (db.events.filter fun e =>
        e.user_id == uid && (start_of_month now).leb e.created_at).length) ∧
    (userEvents db uid = [] →
      (get_statistics db uid now).most_used_category = "None" ∧
      (get_statistics db uid now).most_used_count = 0) ∧
    (userEvents db uid ≠ [] →
      top_group_resolves db uid = true →
      ∃ cat ∈ db.categories,
        (get_statistics db uid now).most_used_category = cat.name ∧
        (get_statistics db uid now).most_used_count =
          ((userEvents db uid).filter fun e => e.category_id == cat.id).length ∧
        ∀ cid : Nat,
          ((userEvents db uid).filter fun e => e.category_id == cid).length ≤
            (get_statistics db uid now).most_used_count) :=
  ⟨get_statistics_month db uid now,
   get_statistics_no_events db uid now,
   get_statistics_top db uid now⟩

/-- Fixture event of user "5" in the existing category 10. -/
def evA : Event := ⟨21, "5", "A", "a", 100, 10, t0, false⟩

/-- Second fixture event of user "5" in the existing category 10. -/
def evB : Event := ⟨22, "5", "B", "b", 200, 10, t0, false⟩

/-- Fixture event of user "5" referencing the nonexistent category 99. -/
def evC : Event := ⟨23, "5", "C", "c", 300, 99, t0, false⟩

/-- Fixture database in which the most-used category of user "5" (id 10,
two events) resolves while another event of the same user references the
dangling id 99. -/
def dbMix : DB := ⟨[], [cat10], [evA, evB, evC], 50⟩

/-- Witness for the amended C9: a user with no events gets the sentinel,
and a user whose top aggregation group resolves gets the category name
and the maximal count even though another event of that user references
a dangling category id. -/
theorem c9_amended_witness :
    ((get_statistics db9 "7" t0).most_used_category = "None" ∧
     (get_statistics db9 "7" t0).most_used_count = 0) ∧
    ∃ cat ∈ dbMix.categories,
      (get_statistics dbMix "5" t0).most_used_category = cat.name ∧
      (get_statistics dbMix "5" t0).most_used_count =
        ((userEvents dbMix "5").filter fun e => e.category_id == cat.id).length ∧
      ∀ cid : Nat,
        ((userEvents dbMix "5").filter fun e => e.category_id == cid).length ≤
          (get_statistics dbMix "5" t0).most_used_count :=
  ⟨(c9_amended_statistics db9 "7" t0).2.1 (by decide),
   (c9_amended_statistics dbMix "5" t0).2.2 (by decide) (by decide)⟩

/-- C10: an entry appears in the rendered upcoming-events reply exactly
when some event of the query result has a category id that resolves via
`find_one` and the entry is its formatting; consequently an event whose
category reference is dangling is silently omitted — no error message
and no placeholder — while events with resolvable categories are
rendered. -/
theorem c10_dangling_events_silently_omitted (db : DB) (uid : String) (now : Int)
    (r : Entry) :
    r ∈ renderUpcoming db uid now ↔
      ∃ e ∈ get_upcoming_events db uid now,
        ∃ c, (db.categories.find? fun c2 => c2.id == e.category_id) = some c ∧
          r = ⟨e.title, c.name, e.date_time, e.description⟩ := by
  simp only [renderUpcoming, List.mem_filterMap, Option.map_eq_some']
  constructor
  · rintro ⟨e, he, c, hc, rfl⟩
    exact ⟨e, he, c, hc, rfl⟩
  · rintro ⟨e, he, c, hc, rfl⟩
    exact ⟨e, he, c, hc, rfl⟩

/-- Witness for C10 at a concrete database and entry. -/
theorem c10_witness :
    (⟨"A", "Work", 100, "a"⟩ : Entry) ∈ renderUpcoming db4 "5" 0 ↔
      ∃ e ∈ get_upcoming_events db4 "5" 0,
        ∃ c, (db4.categories.find? fun c2 => c2.id == e.category_id) = some c ∧
          (⟨"A", "Work", 100, "a"⟩ : Entry) = ⟨e.title, c.name, e.date_time, e.description⟩ :=
  c10_dangling_events_silently_omitted db4 "5" 0 ⟨"A", "Work", 100, "a"⟩

/-- Witness for C5 at the concrete message "Gym". -/
theorem c5_witness :
    add_category_message_filter ⟨some "Gym", some u5⟩ = .error .attributeError ∧
    add_category_message_filter ⟨some "Gym", some u5⟩ ≠ .ok true :=
  ⟨c5_add_category_handler_unreachable.1, c5_add_category_handler_unreachable.2 _⟩
